import Mathlib

/-!
Verification of the SmartTask command interpreter (`ai_process` in `app.py`).

Python strings are modelled as `List Char` (`PyStr`); each Python string
primitive used by the interpreter is embedded as a function on `PyStr`:
`lower`, `strip`, the `in` containment test, `startswith`, `replace`
(which replaces every occurrence), `upper`, and `"\n".join`.

Python `datetime` values are modelled by the record `DT`;
`datetime.fromisoformat` is modelled by `parseDT` on the canonical forms
produced by `datetime.isoformat()` — `YYYY-MM-DD[THH:MM[:SS[.ffffff]]]`
with a space also accepted as the separator, optionally carrying a UTC
offset (`Z` or `±HH:MM[:SS[.ffffff]]`), which yields an offset-*aware*
value — with full range validation of every field.  This is exactly the
domain of deadlines the application can store, since `POST /api/tasks`
normalizes every deadline through `fromisoformat(...).isoformat()`.
Naive values compare field-wise (realised by `DT.instant`), aware values
by their UTC instant (`DT.cmpKey`); comparing a naive with an aware
value raises `TypeError`.  `timedelta(days=n)` is `addDays` and
`today_start` zeroes the time-of-day fields, as in the source.

`ai_process` takes the current time as an explicit `DT` argument (the
source reads `datetime.now()` inside `today_start`); task-list mutation
is modelled by returning the new list, and the two reply shapes of the
source (a bare string, or a dict carrying the `_save` marker) are the
two constructors of `Reply`.

The function `ai_process` is the *crash-free projection* of the source:
it gives the source's result on every run that returns.  The source has
exactly one statement that can raise past `ai_process`'s own handlers —
`upcoming.sort(key=parse_dt)` in the nearest-deadline branch, which sits
outside every `try`/`except` and raises `TypeError` whenever its keys
mix offset-aware and offset-naive datetimes (every other date use is
wrapped in a per-item `try`/`except`).  `terdekatSortRaises` captures
that condition and `ai_process_run` the resulting partial behaviour:
`none` exactly when the Python call raises.
-/

namespace SmartTask

/-- A Python string, as its list of characters. -/
abbrev PyStr := List Char

/-- Characters of a Lean string literal, used to transcribe the
string literals of the Python source. -/
def pstr (s : String) : PyStr := s.data

/-- Python `str.lower()` (ASCII case mapping, which covers every string
the interpreter compares). -/
def pyLower (s : PyStr) : PyStr := s.map Char.toLower

/-- Python `str.upper()`. -/
def pyUpper (s : PyStr) : PyStr := s.map Char.toUpper

/-- Whitespace stripped by Python `str.strip()` (the ASCII whitespace
characters that occur in the interpreter's inputs). -/
def isPySpace (c : Char) : Bool :=
  c = ' ' || c = '\t' || c = '\n' || c = '\r'

/-- Python `str.strip()`: drop whitespace from both ends. -/
def pyStrip (s : PyStr) : PyStr :=
  ((s.dropWhile isPySpace).reverse.dropWhile isPySpace).reverse

/-- Python `sub in s` (substring containment; the empty string is a
substring of everything). -/
def pyIn (sub : PyStr) : PyStr → Bool
  | [] => sub.isEmpty
  | c :: rest => sub.isPrefixOf (c :: rest) || pyIn sub rest

/-- Python `s.startswith(pat)`. -/
def pyStartsWith (pat s : PyStr) : Bool := pat.isPrefixOf s

/-- Python `s.replace(pat, rep)` for a non-empty `pat`: replace every
leftmost non-overlapping occurrence.  The recursion is driven by a fuel
argument bounded by the length of `s`, which suffices because each step
consumes at least one character. -/
def pyReplaceF (pat rep : PyStr) : Nat → PyStr → PyStr
  | _, [] => []
  | 0, s => s
  | fuel + 1, c :: cs =>
    if !pat.isEmpty && pat.isPrefixOf (c :: cs) then
      rep ++ pyReplaceF pat rep fuel ((c :: cs).drop pat.length)
    else
      c :: pyReplaceF pat rep fuel cs

/-- Python `s.replace(pat, rep)` (the interpreter only calls it with the
non-empty patterns "hapus" and "selesai"). -/
def pyReplace (pat rep s : PyStr) : PyStr := pyReplaceF pat rep s.length s

/-- Python `"\n".join(xs)`. -/
def joinNL : List PyStr → PyStr
  | [] => []
  | [x] => x
  | x :: y :: rest => x ++ '\n' :: joinNL (y :: rest)

/-- Python `str(n)` for a natural number. -/
def natStr (n : Nat) : PyStr := (Nat.repr n).data

/-- A `datetime` value: the seven calendar/time fields, plus the UTC
offset in microseconds when the value is offset-aware (`tz = none` for a
naive value, as produced by deadlines without an offset suffix). -/
structure DT where
  year : Nat
  month : Nat
  day : Nat
  hour : Nat
  minute : Nat
  second : Nat
  usec : Nat
  tz : Option Int
deriving DecidableEq, Repr

/-- Gregorian leap year, as `calendar.isleap` / `datetime` use it. -/
def isLeap (y : Nat) : Bool :=
  y % 4 = 0 && (y % 100 != 0 || y % 400 = 0)

/-- Days in a month, used by `fromisoformat` range validation and by
`timedelta` day arithmetic. -/
def daysInMonth (y m : Nat) : Nat :=
  if m = 2 then (if isLeap y then 29 else 28)
  else if m = 4 || m = 6 || m = 9 || m = 11 then 30
  else 31

/-- Read exactly two decimal digits. -/
def read2 : PyStr → Option (Nat × PyStr)
  | c1 :: c2 :: rest =>
    if c1.isDigit && c2.isDigit then
      some (10 * (c1.toNat - 48) + (c2.toNat - 48), rest)
    else none
  | _ => none

/-- Read exactly four decimal digits. -/
def read4 : PyStr → Option (Nat × PyStr)
  | c1 :: c2 :: c3 :: c4 :: rest =>
    if c1.isDigit && c2.isDigit && c3.isDigit && c4.isDigit then
      some (1000 * (c1.toNat - 48) + 100 * (c2.toNat - 48) +
            10 * (c3.toNat - 48) + (c4.toNat - 48), rest)
    else none
  | _ => none

/-- Expect one fixed character. -/
def expectChar (c : Char) : PyStr → Option PyStr
  | d :: rest => if d = c then some rest else none
  | [] => none

/-- Read a run of fractional digits (microsecond scaling; digits beyond
six are accepted and truncated, as `fromisoformat` does) and return the
unconsumed rest. -/
def readFrac (s : PyStr) : Option (Nat × PyStr) :=
  let ds := s.takeWhile Char.isDigit
  if ds.isEmpty then none
  else
    let ds6 := ds.take 6
    some ((ds6.foldl (fun a c => 10 * a + (c.toNat - 48)) 0) * 10 ^ (6 - ds6.length),
          s.drop ds.length)

/-- Read an optional UTC-offset suffix, which must exhaust the string:
nothing (a naive value), `Z`, or `±HH:MM[:SS[.ffffff]]` with the same
bound as `datetime.timezone` (strictly less than one day).  The result
is the signed offset in microseconds. -/
def readTzSuffix : PyStr → Option (Option Int)
  | [] => some none
  | ['Z'] => some (some 0)
  | c :: rest =>
    if c = '+' || c = '-' then
      match read2 rest with
      | some (hh, ':' :: r2) =>
        (match read2 r2 with
         | some (mm, r3) => do
           let (ss, us) ←
             (match r3 with
              | [] => some (0, 0)
              | ':' :: r4 =>
                (match read2 r4 with
                 | some (ss, []) => some (ss, 0)
                 | some (ss, '.' :: r5) => do
                   let (us, r6) ← readFrac r5
                   if r6.isEmpty then some (ss, us) else none
                 | _ => none)
              | _ => none)
           if hh ≤ 23 && mm ≤ 59 && ss ≤ 59 then
             let total : Int := ((hh * 3600 + mm * 60 + ss) * 1000000 + us : Nat)
             some (some (if c = '+' then total else -total))
           else none
         | none => none)
      | _ => none
    else none

/-- Read the time-of-day part `HH:MM[:SS[.ffffff]]` followed by the
optional UTC-offset suffix, which together must exhaust the string. -/
def readTime (s : PyStr) : Option (Nat × Nat × Nat × Nat × Option Int) := do
  let (h, s) ← read2 s
  let s ← expectChar ':' s
  let (mi, s) ← read2 s
  match s with
  | ':' :: s2 => do
    let (sec, s3) ← read2 s2
    match s3 with
    | '.' :: s4 => do
      let (us, s5) ← readFrac s4
      let tz ← readTzSuffix s5
      some (h, mi, sec, us, tz)
    | _ => do
      let tz ← readTzSuffix s3
      some (h, mi, sec, 0, tz)
  | _ => do
    let tz ← readTzSuffix s
    some (h, mi, 0, 0, tz)

/-- Model of `datetime.fromisoformat` on the canonical shapes
`datetime.isoformat()` emits: `YYYY-MM-DD`, optionally followed by a `T`
or space separator and `HH:MM[:SS[.ffffff]]`, optionally followed by a
UTC offset (`Z` or `±HH:MM[:SS[.ffffff]]`) — an offset-bearing string
parses to an *aware* value.  All fields are range-validated; anything
else is a parse failure (`None`).  This is exactly the domain of
deadlines the application can hold: `POST /api/tasks` normalizes every
stored deadline through `fromisoformat(...).isoformat()`, which emits
these forms (offset included for aware input); other ISO spellings
`fromisoformat` accepts are converted to them before storage. -/
def parseDT (s : PyStr) : Option DT := do
  let (y, s) ← read4 s
  let s ← expectChar '-' s
  let (mo, s) ← read2 s
  let s ← expectChar '-' s
  let (d, s) ← read2 s
  let (h, mi, sec, us, tz) ←
    (match s with
     | [] => some (0, 0, 0, 0, none)
     | sep :: r => if sep = 'T' || sep = ' ' then readTime r else none)
  if 1 ≤ y && y ≤ 9999 && 1 ≤ mo && mo ≤ 12 && 1 ≤ d && d ≤ daysInMonth y mo
     && h ≤ 23 && mi ≤ 59 && sec ≤ 59 then
    some ⟨y, mo, d, h, mi, sec, us, tz⟩
  else none

/-- Leap years strictly before year `y` (proleptic Gregorian). -/
def leapsBefore (y : Nat) : Nat :=
  (y - 1) / 4 - (y - 1) / 100 + (y - 1) / 400

/-- Days in the months of year `y` strictly before month `m`. -/
def daysBeforeMonth (y : Nat) : Nat → Nat
  | 0 => 0
  | 1 => 0
  | m + 1 => daysBeforeMonth y m + daysInMonth y m

/-- Proleptic-Gregorian day count of a civil date (day 0 is 0001-01-01,
i.e. Python's `toordinal() - 1`). -/
def dayOrdinal (y m d : Nat) : Nat :=
  365 * (y - 1) + leapsBefore y + daysBeforeMonth y m + (d - 1)

/-- The instant named by the *calendar fields* of a `datetime`, in
microseconds since 0001-01-01 00:00:00.  For naive values this realises
`datetime`'s field-wise comparison order. -/
def DT.instant (t : DT) : Int :=
  (((dayOrdinal t.year t.month t.day : Int) * 86400 +
    t.hour * 3600 + t.minute * 60 + t.second) * 1000000) + t.usec

/-- The comparison key of a `datetime`: naive values compare by their
calendar fields (equivalently, by `instant`), aware values by their UTC
instant (`instant` minus the offset).  Python refuses to compare a naive
value with an aware one (`TypeError`); a sort over mixed keys therefore
raises, which `terdekatSortRaises` models separately. -/
def DT.cmpKey (t : DT) : Int := t.instant - t.tz.getD 0

/-- `today_start()` from the source: the current time with hour, minute,
second and microsecond replaced by zero. -/
def todayStart (n : DT) : DT :=
  { n with hour := 0, minute := 0, second := 0, usec := 0 }

/-- Advance a `datetime` by one calendar day. -/
def nextDay (t : DT) : DT :=
  if t.day < daysInMonth t.year t.month then { t with day := t.day + 1 }
  else if t.month < 12 then { t with month := t.month + 1, day := 1 }
  else { t with year := t.year + 1, month := 1, day := 1 }

/-- `t + timedelta(days = n)` for a naive `datetime`. -/
def addDays : Nat → DT → DT
  | 0, t => t
  | n + 1, t => addDays n (nextDay t)

/-- English month name, as CPython `strftime("%B")` renders it in the
default locale. -/
def monthName (m : Nat) : PyStr :=
  match m with
  | 1 => pstr ("January")
  | 2 => pstr ("February")
  | 3 => pstr ("March")
  | 4 => pstr ("April")
  | 5 => pstr ("May")
  | 6 => pstr ("June")
  | 7 => pstr ("July")
  | 8 => pstr ("August")
  | 9 => pstr ("September")
  | 10 => pstr ("October")
  | 11 => pstr ("November")
  | 12 => pstr ("December")
  | _ => []

/-- Two-digit zero-padded rendering (`strftime("%d")`). -/
def pad2 (n : Nat) : PyStr := if n < 10 then '0' :: natStr n else natStr n

/-- Four-digit zero-padded year (`strftime("%Y")` on the four-digit
years the parser accepts). -/
def pad4 (n : Nat) : PyStr :=
  if n < 10 then '0' :: '0' :: '0' :: natStr n
  else if n < 100 then '0' :: '0' :: natStr n
  else if n < 1000 then '0' :: natStr n
  else natStr n

/-- `format_date_iso` from the source: the empty string stays empty, a
parseable timestamp is rendered as `strftime("%d %B %Y")`, and an
unparseable one is echoed verbatim. -/
def format_date_iso (iso : PyStr) : PyStr :=
  if iso.isEmpty then []
  else
    match parseDT iso with
    | some d => pad2 d.day ++ ' ' :: (monthName d.month ++ ' ' :: pad4 d.year)
    | none => iso

/-- One task record, with the fields the application stores (`app.py`
creates every task with all six fields present). -/
structure Task where
  id : PyStr
  name : PyStr
  deadline : PyStr
  priority : PyStr
  note : PyStr
  done : Bool
deriving DecidableEq, Repr

/-- The profile record (`profile.json`); the interpreter reads only
`plan`.  A missing `plan` key is read as `"basic"` by
`profile.get("plan", "basic")`, so it is modelled by that value. -/
structure Profile where
  name : PyStr
  email : PyStr
  avatar : PyStr
  plan : PyStr
  created : PyStr
deriving DecidableEq, Repr

/-- The interpreter's reply: the source returns either a bare string or
a dict `{"reply": text, "_save": True}` whose `_save` marker makes the
caller persist the (mutated) task list. -/
inductive Reply where
  | plain (text : PyStr)
  | withSave (text : PyStr)
deriving DecidableEq, Repr

/-- The reply's user-facing text. -/
def Reply.text : Reply → PyStr
  | .plain s => s
  | .withSave s => s

/-- Whether the reply carries the `_save` mutation marker. -/
def Reply.save : Reply → Bool
  | .plain _ => false
  | .withSave _ => true

/-- Rule 1 trigger: `any(w in text for w in ["halo","hai","hello","hi"])`. -/
def isGreeting (text : PyStr) : Bool :=
  pyIn (pstr ("halo")) text || pyIn (pstr ("hai")) text ||
  pyIn (pstr ("hello")) text || pyIn (pstr ("hi")) text

/-- Rule 2 trigger: `"siapa kamu" in text or "kamu siapa" in text`. -/
def isIdentity (text : PyStr) : Bool :=
  pyIn (pstr ("siapa kamu")) text || pyIn (pstr ("kamu siapa")) text

/-- Rule 3 trigger: `"apa kabar" in text`. -/
def isKabar (text : PyStr) : Bool := pyIn (pstr ("apa kabar")) text

/-- Any of the three small-talk rules (rules 1-3). -/
def smallTalk (text : PyStr) : Bool :=
  isGreeting text || isIdentity text || isKabar text

/-- The delete command's filter string:
`text.replace("hapus","").strip()` — note that `str.replace` removes
every occurrence of `"hapus"`, not only the leading prefix. -/
def hapusFilter (text : PyStr) : PyStr :=
  pyStrip (pyReplace (pstr ("hapus")) [] text)

/-- The mark-done command's filter string:
`text.replace("selesai","").strip()`. -/
def selesaiFilter (text : PyStr) : PyStr :=
  pyStrip (pyReplace (pstr ("selesai")) [] text)

/-- `name in t.get("name","").lower()` with the delete filter. -/
def hapusMatch (text : PyStr) (t : Task) : Bool :=
  pyIn (hapusFilter text) (pyLower t.name)

/-- `name in t.get("name","").lower()` with the mark-done filter. -/
def selesaiMatch (text : PyStr) (t : Task) : Bool :=
  pyIn (selesaiFilter text) (pyLower t.name)

/-- The in-place `f["done"] = True` on the first task satisfying `p`
(the `next(...)` + mutation of the source): returns the task that was
found (with its original fields, whose `name` the reply prints) and the
updated list. -/
def markFirstDone (p : Task → Bool) : List Task → Option Task × List Task
  | [] => (none, [])
  | t :: ts =>
    if p t then (some t, { t with done := true } :: ts)
    else
      let r := markFirstDone p ts
      (r.1, t :: r.2)

/-- Sort key for the deadline-sort: `parse_dt(t)`; the list is filtered
to parseable deadlines before sorting, so the `none` fallback value is
never compared.  All-naive and all-aware key sets realise the Python
comparison order; a mixed set makes the Python sort raise (see
`terdekatSortRaises`), so no result of this sort is observed there. -/
def dtKey (t : Task) : Int :=
  match parseDT t.deadline with
  | some d => d.cmpKey
  | none => 0

/-- Rule 6 trigger: `"terdekat" in text or "deadline terdekat" in text`. -/
def hasTerdekat (text : PyStr) : Bool :=
  pyIn (pstr ("terdekat")) text || pyIn (pstr ("deadline terdekat")) text

/-- Rule 7 trigger: `"minggu" in text`. -/
def hasMinggu (text : PyStr) : Bool := pyIn (pstr ("minggu")) text

/-- Rule 8 trigger: `"besok" in text`. -/
def hasBesok (text : PyStr) : Bool := pyIn (pstr ("besok")) text

/-- Rule 9 trigger: `"berapa" in text or "jumlah" in text`. -/
def hasCount (text : PyStr) : Bool :=
  pyIn (pstr ("berapa")) text || pyIn (pstr ("jumlah")) text

/-- Rule 10 trigger: `any(k in text for k in ["tampilkan","semua","daftar"])`. -/
def hasListAll (text : PyStr) : Bool :=
  pyIn (pstr ("tampilkan")) text || pyIn (pstr ("semua")) text ||
  pyIn (pstr ("daftar")) text

/-- The task line of the basic-plan list (also the per-task line of the
"this week" list): `- {name} ({format_date_iso(deadline)})`. -/
def taskLineBasic (t : Task) : PyStr :=
  pstr ("- ") ++ t.name ++ pstr (" (") ++ format_date_iso t.deadline ++ pstr (")")

/-- The task line of the pro-plan list:
`- {name} ({date}) • {priority.upper()} • {note}`. -/
def taskLinePro (t : Task) : PyStr :=
  pstr ("- ") ++ t.name ++ pstr (" (") ++ format_date_iso t.deadline ++
  pstr (") • ") ++ pyUpper t.priority ++ pstr (" • ") ++ t.note

/-- The static help fallback (rule 12). -/
def helpMsg : PyStr :=
  pstr ("Saya tidak paham. Coba: 'deadline terdekat', 'tugas minggu ini', 'tugas besok', 'berapa tugas saya', atau 'hapus <nama tugas>'.")

/-- The static greeting reply (rule 1). -/
def greetMsg : PyStr := pstr ("Hai! Ada yang bisa saya bantu?")

/-- `ai_process(q, tasks, profile)` from `app.py`, with the current time
passed explicitly.  The source mutates `tasks` in place and signals
persistence with the `_save` marker; here the (possibly) updated list is
returned next to the reply. -/
def ai_process (now : DT) (q : PyStr) (tasks : List Task) (profile : Profile) :
    Reply × List Task :=
  let text := pyStrip (pyLower q)
  -- Small talk
  if isGreeting text then (.plain greetMsg, tasks)
  else if isIdentity text then
    (.plain (pstr ("Saya SmartTask AI — asisten tugas dan pengingat.")), tasks)
  else if isKabar text then
    (.plain (pstr ("Baik, terima kasih! Kamu gimana?")), tasks)
  -- Commands
  else if pyStartsWith (pstr ("hapus")) text then
    let found := tasks.filter (hapusMatch text)
    -- `len(found) == 1` holds exactly when `found` is a one-element list
    match found with
    | [f] =>
      (.withSave (pstr ("Tugas '") ++ f.name ++ pstr ("' dihapus.")),
       tasks.erase f)
    | _ =>
      if found.length > 1 then
        (.plain (pstr ("Ditemukan ") ++ natStr found.length ++
                 pstr (" tugas. Sebutkan nama lebih spesifik.")), tasks)
      else
        (.plain (pstr ("Tugas '") ++ hapusFilter text ++
                 pstr ("' tidak ditemukan.")), tasks)
  else if pyStartsWith (pstr ("selesai")) text then
    match markFirstDone (selesaiMatch text) tasks with
    | (some f, tasks2) =>
      (.withSave (pstr ("Tugas '") ++ f.name ++ pstr ("' ditandai selesai.")),
       tasks2)
    | (none, _) =>
      (.plain (pstr ("Tugas '") ++ selesaiFilter text ++
               pstr ("' tidak ditemukan.")), tasks)
  -- Deadline terdekat (robust)
  else if hasTerdekat text then
    let upcoming :=
      (tasks.filter (fun t => !t.done)).filter
        (fun t => (parseDT t.deadline).isSome)
    -- the source's emptiness check and `upcoming[0]` after the sort are
    -- one `match`: the sort of `[]` is `[]` and is otherwise non-empty
    match List.insertionSort (fun a b => dtKey a ≤ dtKey b) upcoming with
    | [] =>
      (.plain (pstr ("Tidak ada tugas mendatang atau semua deadline tidak valid.")),
       tasks)
    | t :: _ =>
      (.plain (pstr ("Deadline terdekat adalah '") ++ t.name ++
               pstr ("' pada ") ++ format_date_iso t.deadline ++ pstr (".")),
       tasks)
  else if hasMinggu text then
    let n0 := todayStart now
    let endD := addDays 7 n0
    let lst := tasks.filter (fun t =>
      -- `now <= d` raises `TypeError` for an offset-aware `d` (the
      -- `now` of `today_start()` is naive); the branch's `except: pass`
      -- catches it, so aware deadlines are skipped like unparseable ones
      match parseDT t.deadline with
      | some d =>
        d.tz.isNone && decide (n0.instant ≤ d.instant) &&
        decide (d.instant ≤ endD.instant) && !t.done
      | none => false)
    if lst.isEmpty then (.plain (pstr ("Tidak ada tugas minggu ini.")), tasks)
    else
      (.plain (pstr ("Tugas minggu ini:\n") ++ joinNL (lst.map taskLineBasic)),
       tasks)
  else if hasBesok text then
    let tom := addDays 1 (todayStart now)
    let lst := tasks.filter (fun t =>
      match parseDT t.deadline with
      | some d =>
        decide (d.year = tom.year) && decide (d.month = tom.month) &&
        decide (d.day = tom.day) && !t.done
      | none => false)
    if lst.isEmpty then (.plain (pstr ("Tidak ada tugas untuk besok.")), tasks)
    else
      (.plain (pstr ("Tugas besok:\n") ++
               joinNL (lst.map (fun t => pstr ("- ") ++ t.name))), tasks)
  else if hasCount text then
    (.plain (pstr ("Kamu punya ") ++
             natStr (tasks.filter (fun t => !t.done)).length ++
             pstr (" tugas.")), tasks)
  else if hasListAll text then
    if tasks.isEmpty then (.plain (pstr ("Belum ada tugas.")), tasks)
    else if profile.plan = pstr ("pro") then
      (.plain (pstr ("Daftar tugas:\n") ++ joinNL (tasks.map taskLinePro)), tasks)
    else
      (.plain (pstr ("Daftar tugas:\n") ++ joinNL (tasks.map taskLineBasic)),
       tasks)
  else
    -- direct match by name
    match tasks.find? (fun t => pyIn (pyLower t.name) text) with
    | some t =>
      if profile.plan = pstr ("pro") then
        (.plain (pstr ("Deadline '") ++ t.name ++ pstr ("': ") ++
                 format_date_iso t.deadline ++ pstr ("\nPriority: ") ++
                 t.priority ++ pstr ("\nNote: ") ++ t.note), tasks)
      else
        (.plain (pstr ("Deadline '") ++ t.name ++ pstr ("': ") ++
                 format_date_iso t.deadline), tasks)
    | none => (.plain helpMsg, tasks)

/-- The deadline parses to an offset-aware value. -/
def awareDeadline (t : Task) : Bool :=
  match parseDT t.deadline with
  | some d => d.tz.isSome
  | none => false

/-- Modelled from the source's runtime semantics: the one statement of
`ai_process` that can raise past its own handlers is
`upcoming.sort(key=parse_dt)` in the nearest-deadline branch, which is
outside every `try`/`except`.  Python raises `TypeError` on any executed
comparison between an offset-naive and an offset-aware `datetime`; a
comparison sort that contains both kinds must execute such a comparison
(the relative order of a naive and an aware element can only be
established through a chain of executed comparisons, and every chain
between the two kinds crosses them), while an all-naive or all-aware key
list sorts without raising.  Hence the call raises exactly when the
nearest-deadline branch is reached and its parseable not-done candidates
contain both an aware and a naive deadline. -/
def terdekatSortRaises (q : PyStr) (tasks : List Task) : Bool :=
  let text := pyStrip (pyLower q)
  !smallTalk text && !pyStartsWith (pstr ("hapus")) text &&
  !pyStartsWith (pstr ("selesai")) text && hasTerdekat text &&
  (let upcoming :=
    (tasks.filter (fun t => !t.done)).filter (fun t => (parseDT t.deadline).isSome)
   upcoming.any awareDeadline && upcoming.any (fun t => !awareDeadline t))

/-- A full run of `ai_process`, partiality included: `none` exactly when
the Python call raises (the uncaught `TypeError` of the nearest-deadline
sort), and the crash-free result otherwise. -/
def ai_process_run (now : DT) (q : PyStr) (tasks : List Task) (profile : Profile) :
    Option (Reply × List Task) :=
  if terdekatSortRaises q tasks then none
  else some (ai_process now q tasks profile)

/-! ## Spec-side definitions

Definitions transcribing the *claims'* words (not the source), used to
compare the specified behaviour with the implemented one. -/

/-- Modelled from the claim's words: the delete remainder as the claims
describe it — "the input with the leading prefix `hapus` stripped and
surrounding whitespace trimmed". -/
def claimHapusRemainder (text : PyStr) : PyStr :=
  pyStrip (text.drop (pstr ("hapus")).length)

/-- Modelled from the spec's words for the mark-done rule ("strip the
prefix, treat remainder as a ... substring filter"): the input with the
leading prefix `selesai` stripped and whitespace trimmed. -/
def claimSelesaiRemainder (text : PyStr) : PyStr :=
  pyStrip (text.drop (pstr ("selesai")).length)

/-- The two mutating paths of the interpreter, as a predicate on the
inputs: a delete (`hapus`) whose filter matches exactly one task, or a
mark-done (`selesai`) whose filter matches at least one task, in both
cases with no earlier small-talk rule firing. -/
def mutatesPath (q : PyStr) (tasks : List Task) : Bool :=
  let text := pyStrip (pyLower q)
  !smallTalk text &&
    (if pyStartsWith (pstr ("hapus")) text then
      (tasks.filter (hapusMatch text)).length == 1
     else if pyStartsWith (pstr ("selesai")) text then
      tasks.any (selesaiMatch text)
     else false)

/-- No rule of the interpreter matches the input: none of the keyword
rules fire and no task name occurs in the text (so the help fallback is
reached). -/
def noRuleMatches (q : PyStr) (tasks : List Task) : Bool :=
  let text := pyStrip (pyLower q)
  !smallTalk text && !pyStartsWith (pstr ("hapus")) text &&
  !pyStartsWith (pstr ("selesai")) text && !hasTerdekat text &&
  !hasMinggu text && !hasBesok text && !hasCount text && !hasListAll text &&
  !tasks.any (fun t => pyIn (pyLower t.name) text)

/-! ## Helper lemmas -/

theorem smallTalk_eq_false {text : PyStr} (h : smallTalk text = false) :
    isGreeting text = false ∧ isIdentity text = false ∧ isKabar text = false := by
  simpa [smallTalk, and_assoc] using h

theorem length_pos_of_left_ne_nil (a b : PyStr) (h : a ≠ []) :
    0 < (a ++ b).length := by
  cases a with
  | nil => exact absurd rfl h
  | cons c cs => simp

/-- A filter returning exactly one element splits the list around that
element, everything else failing the predicate. -/
theorem filter_eq_singleton_decomp {p : Task → Bool} {l : List Task} {t0 : Task}
    (h : l.filter p = [t0]) :
    ∃ l1 l2, l = l1 ++ t0 :: l2 ∧ (∀ u ∈ l1, p u = false) ∧
      (∀ u ∈ l2, p u = false) ∧ p t0 = true := by
  induction l with
  | nil => simp at h
  | cons a l ih =>
    by_cases hpa : p a
    · rw [List.filter_cons_of_pos hpa] at h
      obtain ⟨rfl, hrest⟩ := List.cons_eq_cons.mp h
      refine ⟨[], l, rfl, by simp, ?_, hpa⟩
      intro u hu
      have := List.filter_eq_nil_iff.mp hrest u hu
      simpa using this
    · rw [List.filter_cons_of_neg hpa] at h
      obtain ⟨l1, l2, rfl, h1, h2, h3⟩ := ih h
      exact ⟨a :: l1, l2, rfl, by
        intro u hu
        rcases List.mem_cons.mp hu with rfl | hu
        · simpa using hpa
        · exact h1 u hu, h2, h3⟩

theorem markFirstDone_of_none {p : Task → Bool} {l : List Task}
    (h : ∀ u ∈ l, p u = false) : markFirstDone p l = (none, l) := by
  induction l with
  | nil => rfl
  | cons a l ih =>
    have ha : p a = false := h a (List.mem_cons_self a l)
    simp only [markFirstDone, ha, Bool.false_eq_true, if_false]
    rw [ih (fun u hu => h u (List.mem_cons_of_mem a hu))]

theorem markFirstDone_decomp {p : Task → Bool} {l1 l2 : List Task} {t0 : Task}
    (h1 : ∀ u ∈ l1, p u = false) (h0 : p t0 = true) :
    markFirstDone p (l1 ++ t0 :: l2) =
      (some t0, l1 ++ { t0 with done := true } :: l2) := by
  induction l1 with
  | nil => simp [markFirstDone, h0]
  | cons a l1 ih =>
    have ha : p a = false := h1 a (List.mem_cons_self a l1)
    simp only [List.cons_append, markFirstDone, ha, Bool.false_eq_true, if_false]
    rw [List.append_eq, ih (fun u hu => h1 u (List.mem_cons_of_mem a hu))]

theorem markFirstDone_fst_isSome (p : Task → Bool) (l : List Task) :
    (markFirstDone p l).1.isSome = l.any p := by
  induction l with
  | nil => rfl
  | cons a l ih =>
    by_cases hpa : p a <;> simp [markFirstDone, hpa, ih]

/-- A successful `find?` splits the list at the first hit. -/
theorem find?_some_decomp {p : Task → Bool} {l : List Task} {t0 : Task}
    (h : l.find? p = some t0) :
    ∃ l1 l2, l = l1 ++ t0 :: l2 ∧ (∀ u ∈ l1, p u = false) ∧ p t0 = true := by
  induction l with
  | nil => simp at h
  | cons a l ih =>
    by_cases hpa : p a
    · rw [List.find?_cons_of_pos _ hpa] at h
      obtain rfl := Option.some_inj.mp h
      exact ⟨[], l, rfl, by simp, hpa⟩
    · rw [List.find?_cons_of_neg _ hpa] at h
      obtain ⟨l1, l2, rfl, hl1, hp0⟩ := ih h
      refine ⟨a :: l1, l2, rfl, ?_, hp0⟩
      intro u hu
      rcases List.mem_cons.mp hu with rfl | hu
      · simpa using hpa
      · exact hl1 u hu

theorem isPrefixOf_append_self (pat r : PyStr) :
    pat.isPrefixOf (pat ++ r) = true := by
  induction pat with
  | nil => simp [List.isPrefixOf]
  | cons a as ih => simp [List.isPrefixOf, ih]

theorem startsWith_decomp {pat s : PyStr} (h : pyStartsWith pat s = true) :
    ∃ r, s = pat ++ r := by
  induction pat generalizing s with
  | nil => exact ⟨s, rfl⟩
  | cons a as ih =>
    cases s with
    | nil => simp [pyStartsWith, List.isPrefixOf] at h
    | cons b bs =>
      simp only [pyStartsWith, List.isPrefixOf, Bool.and_eq_true, beq_iff_eq] at h
      obtain ⟨rfl, hrest⟩ := h
      obtain ⟨r, rfl⟩ := ih hrest
      exact ⟨r, rfl⟩

/-- Replacing a pattern that does not occur in the string leaves the
string unchanged (for any fuel). -/
theorem pyReplaceF_of_not_in {pat rep : PyStr} :
    ∀ (fuel : Nat) (s : PyStr), pyIn pat s = false →
      pyReplaceF pat rep fuel s = s := by
  intro fuel
  induction fuel with
  | zero => intro s _; cases s <;> rfl
  | succ n ih =>
    intro s hs
    cases s with
    | nil => rfl
    | cons c cs =>
      simp only [pyIn, Bool.or_eq_false_iff] at hs
      obtain ⟨hpre, hrest⟩ := hs
      simp only [pyReplaceF, hpre, Bool.and_false]
      simp [ih cs hrest]

/-- One replacement step at the head of the string. -/
theorem pyReplaceF_cons_match (pat rep r : PyStr) (hne : pat ≠ []) (fuel : Nat) :
    pyReplaceF pat rep (fuel + 1) (pat ++ r) = rep ++ pyReplaceF pat rep fuel r := by
  cases pat with
  | nil => exact absurd rfl hne
  | cons a as =>
    have hpre : (a :: as).isPrefixOf ((a :: as) ++ r) = true :=
      isPrefixOf_append_self (a :: as) r
    simp only [List.cons_append] at hpre
    simp only [List.cons_append, pyReplaceF, List.append_eq, List.isEmpty_cons,
      Bool.not_false, Bool.true_and, hpre, if_true]
    simp only [List.length_cons, List.drop_succ_cons, List.drop_left]

/-- If `hapus` occurs only as the leading prefix, the delete filter is
exactly the prefix-stripped, trimmed remainder. -/
theorem hapusFilter_of_no_inner {text : PyStr}
    (h1 : pyStartsWith (pstr ("hapus")) text = true)
    (h2 : pyIn (pstr ("hapus")) (text.drop 5) = false) :
    hapusFilter text = claimHapusRemainder text := by
  obtain ⟨r, rfl⟩ := startsWith_decomp h1
  have h5 : (pstr ("hapus")).length = 5 := rfl
  have hdrop : (pstr ("hapus") ++ r).drop 5 = r := by
    rw [← h5, List.drop_left]
  rw [hdrop] at h2
  unfold hapusFilter claimHapusRemainder pyReplace
  rw [h5, hdrop]
  have hlen : (pstr ("hapus") ++ r).length = (4 + r.length) + 1 := by
    rw [List.length_append, h5]; omega
  rw [hlen, pyReplaceF_cons_match _ _ _ (by decide), pyReplaceF_of_not_in _ _ h2]
  rfl

/-- The head of the deadline-ascending insertion sort is a minimal
element of the input list. -/
theorem insertionSort_head_min {l : List Task} {t : Task} {rest : List Task}
    (h : List.insertionSort (fun a b => dtKey a ≤ dtKey b) l = t :: rest) :
    t ∈ l ∧ ∀ u ∈ l, dtKey t ≤ dtKey u := by
  haveI : IsTotal Task (fun a b => dtKey a ≤ dtKey b) := ⟨fun a b => Int.le_total _ _⟩
  haveI : IsTrans Task (fun a b => dtKey a ≤ dtKey b) :=
    ⟨fun a b c hab hbc => Int.le_trans hab hbc⟩
  have hperm := List.perm_insertionSort (fun a b => dtKey a ≤ dtKey b) l
  have hsorted := List.sorted_insertionSort (fun a b => dtKey a ≤ dtKey b) l
  rw [h] at hperm hsorted
  refine ⟨hperm.mem_iff.mp (List.mem_cons_self t rest), ?_⟩
  intro u hu
  rcases List.mem_cons.mp (hperm.mem_iff.mpr hu) with rfl | hu2
  · exact Int.le_refl _
  · exact List.rel_of_sorted_cons hsorted u hu2

theorem append_length_pos {a : PyStr} (b : PyStr) (h : 0 < a.length) :
    0 < (a ++ b).length := by
  rw [List.length_append]; omega

/-! ## Concrete fixtures used by witnesses and counterexamples -/

/-- An arbitrary reference time (naive, as `datetime.now()` is). -/
def dt0 : DT := ⟨2025, 1, 1, 9, 30, 0, 0, none⟩

/-- A profile on the basic plan. -/
def profBasic : Profile := ⟨pstr ("Siswa"), [], [], pstr ("basic"), []⟩

/-- A profile on the pro plan. -/
def profPro : Profile := ⟨pstr ("Siswa"), [], [], pstr ("pro"), []⟩

/-- The spec's scenario task. -/
def taskMath : Task :=
  ⟨pstr ("t1"), pstr ("Math HW"), pstr ("2025-06-01"), pstr ("medium"), [], false⟩

def taskBuang : Task :=
  ⟨pstr ("t2"), pstr ("buang"), pstr ("2025-06-01"), pstr ("medium"), [], false⟩

def taskXBuang : Task :=
  ⟨pstr ("t3"), pstr ("xbuanghapusy"), pstr ("2025-06-02"), pstr ("medium"), [], false⟩

def taskLap : Task :=
  ⟨pstr ("t4"), pstr ("lap"), pstr ("2025-06-01"), pstr ("medium"), [], false⟩

def taskXLap : Task :=
  ⟨pstr ("t5"), pstr ("xlapselesaiy"), pstr ("2025-06-02"), pstr ("medium"), [], false⟩

def taskJan10 : Task :=
  ⟨pstr ("t6"), pstr ("Tugas A"), pstr ("2025-01-10"), pstr ("high"), pstr ("catatan a"), false⟩

/-- An offset-aware deadline, storable through `POST /api/tasks`
(`fromisoformat` accepts it and `isoformat()` re-emits it verbatim). -/
def taskAware : Task :=
  ⟨pstr ("t8"), pstr ("Tugas Aware"), pstr ("2025-06-01T10:00:00+07:00"),
   pstr ("medium"), [], false⟩

def taskJan05 : Task :=
  ⟨pstr ("t7"), pstr ("Tugas B"), pstr ("2025-01-05"), pstr ("low"), pstr ("catatan b"), false⟩

/-! ## Claims -/

/-- C5: rule precedence is first-match-wins: whenever the normalized
input contains a greeting keyword (`halo`, `hai`, `hello` or `hi`) as a
substring, the interpreter returns the static greeting reply and leaves
the task collection unchanged — even when the text also starts with
`hapus` or `selesai` or contains keywords of later rules. -/
theorem greeting_rule_takes_precedence (now : DT) (q : PyStr) (tasks : List Task)
    (profile : Profile) (h : isGreeting (pyStrip (pyLower q)) = true) :
    ai_process now q tasks profile = (.plain greetMsg, tasks) := by
  unfold ai_process
  simp [h]

/-- C5 witness: `"hapus hiking"` starts with `hapus` yet contains `hi`,
so the greeting rule fires and nothing is deleted. -/
theorem greeting_rule_takes_precedence_witness :
    isGreeting (pyStrip (pyLower (pstr ("hapus hiking")))) = true ∧
    ai_process dt0 (pstr ("hapus hiking")) [taskMath] profBasic =
      (.plain greetMsg, [taskMath]) :=
  ⟨by decide, greeting_rule_takes_precedence dt0 _ _ _ (by decide)⟩

/-- C9: the interpreter is a pure function of its inputs; a call that
does not change the task collection can be repeated on the (identical)
collection and yields the identical reply. -/
theorem readonly_query_idempotent (now : DT) (q : PyStr) (tasks : List Task)
    (profile : Profile) (h : (ai_process now q tasks profile).2 = tasks) :
    (ai_process now q ((ai_process now q tasks profile).2) profile).1 =
      (ai_process now q tasks profile).1 := by
  rw [h]

/-- C9 witness: repeating the count query `"berapa tugas saya"`. -/
theorem readonly_query_idempotent_witness :
    (ai_process dt0 (pstr ("berapa tugas saya")) [taskJan10, taskJan05] profBasic).2 =
      [taskJan10, taskJan05] ∧
    (ai_process dt0 (pstr ("berapa tugas saya"))
        ((ai_process dt0 (pstr ("berapa tugas saya")) [taskJan10, taskJan05] profBasic).2)
        profBasic).1 =
      (ai_process dt0 (pstr ("berapa tugas saya")) [taskJan10, taskJan05] profBasic).1 :=
  ⟨by decide, readonly_query_idempotent dt0 _ _ _ (by decide)⟩

/-- C4 counterexample: for the input `"hapus tugas hapus"` the filter
actually used is `"tugas"` — the interior occurrence of `hapus` is
removed by `str.replace`, not kept as the claim states. -/
theorem hapus_filter_counterexample :
    pyStartsWith (pstr ("hapus")) (pstr ("hapus tugas hapus")) = true ∧
    hapusFilter (pstr ("hapus tugas hapus")) = pstr ("tugas") ∧
    claimHapusRemainder (pstr ("hapus tugas hapus")) = pstr ("tugas hapus") ∧
    hapusFilter (pstr ("hapus tugas hapus")) ≠
      claimHapusRemainder (pstr ("hapus tugas hapus")) := by
  refine ⟨by decide, by decide, by decide, by decide⟩

/-- C4 (amended): the delete filter is the input with *every* occurrence
of `hapus` removed and whitespace trimmed; when `hapus` does not occur
in the remainder after the prefix this coincides with the claimed
prefix-stripping, but interior occurrences are removed, not kept. -/
theorem hapus_filter_strips_all_occurrences (text : PyStr)
    (h1 : pyStartsWith (pstr ("hapus")) text = true)
    (h2 : pyIn (pstr ("hapus")) (text.drop 5) = false) :
    hapusFilter text = claimHapusRemainder text :=
  hapusFilter_of_no_inner h1 h2

/-- C4 witness: on `"hapus tugasku"` the filter is the stripped
remainder `"tugasku"`. -/
theorem hapus_filter_strips_all_occurrences_witness :
    pyStartsWith (pstr ("hapus")) (pstr ("hapus tugasku")) = true ∧
    pyIn (pstr ("hapus")) ((pstr ("hapus tugasku")).drop 5) = false ∧
    hapusFilter (pstr ("hapus tugasku")) = claimHapusRemainder (pstr ("hapus tugasku")) :=
  ⟨by decide, by decide,
   hapus_filter_strips_all_occurrences _ (by decide) (by decide)⟩

/-- C2 counterexample: for `"hapus buanghapus"` the *claimed* remainder
`"buanghapus"` matches exactly one task (`xbuanghapusy`), yet the
interpreter removes nothing and signals no mutation, because the filter
it actually uses is `"buang"` (all occurrences of `hapus` removed),
which matches two tasks. -/
theorem hapus_unique_match_counterexample :
    pyStartsWith (pstr ("hapus")) (pyStrip (pyLower (pstr ("hapus buanghapus")))) = true ∧
    [taskBuang, taskXBuang].filter
        (fun t => pyIn (claimHapusRemainder (pyStrip (pyLower (pstr ("hapus buanghapus")))))
          (pyLower t.name)) = [taskXBuang] ∧
    (ai_process dt0 (pstr ("hapus buanghapus")) [taskBuang, taskXBuang] profBasic).2 =
      [taskBuang, taskXBuang] ∧
    (ai_process dt0 (pstr ("hapus buanghapus")) [taskBuang, taskXBuang] profBasic).1.save =
      false := by
  refine ⟨by decide, by decide, by decide, by decide⟩

/-- C2 (amended): if no small-talk rule fires, the normalized text
starts with `hapus`, and the delete filter (the text with every
occurrence of `hapus` removed, trimmed) matches exactly one task, then
the interpreter removes exactly that task — the others are kept in
order — and signals mutation. -/
theorem hapus_unique_match_removes (now : DT) (q : PyStr) (tasks : List Task)
    (profile : Profile) (text : PyStr) (htext : text = pyStrip (pyLower q))
    (hst : smallTalk text = false)
    (hh : pyStartsWith (pstr ("hapus")) text = true)
    (t0 : Task) (hfound : tasks.filter (hapusMatch text) = [t0]) :
    ∃ l1 l2, tasks = l1 ++ t0 :: l2 ∧
      ai_process now q tasks profile =
        (.withSave (pstr ("Tugas '") ++ t0.name ++ pstr ("' dihapus.")), l1 ++ l2) := by
  subst htext
  obtain ⟨hg, hi, hk⟩ := smallTalk_eq_false hst
  obtain ⟨l1, l2, htasks, h1, _, hp0⟩ := filter_eq_singleton_decomp hfound
  have ht0 : t0 ∉ l1 := by
    intro hmem
    have := h1 t0 hmem
    rw [hp0] at this
    exact absurd this (by simp)
  refine ⟨l1, l2, htasks, ?_⟩
  unfold ai_process
  simp only [hg, hi, hk, hh, Bool.false_eq_true, if_false, if_true, hfound]
  rw [htasks, List.erase_append_right _ ht0, List.erase_cons_head]

/-- C2 witness: the spec scenario — deleting `"math"` from a collection
holding only `Math HW` removes it. -/
theorem hapus_unique_match_removes_witness :
    [taskMath].filter (hapusMatch (pyStrip (pyLower (pstr ("hapus math"))))) = [taskMath] ∧
    ∃ l1 l2, [taskMath] = l1 ++ taskMath :: l2 ∧
      ai_process dt0 (pstr ("hapus math")) [taskMath] profBasic =
        (.withSave (pstr ("Tugas '") ++ taskMath.name ++ pstr ("' dihapus.")), l1 ++ l2) :=
  ⟨by decide,
   hapus_unique_match_removes dt0 _ _ profBasic _ rfl (by decide) (by decide) _ (by decide)⟩

/-- C3 counterexample: for `"hapus buanghapus"` over the one-task
collection `[buang]` the *claimed* remainder `"buanghapus"` matches no
task, so the claim requires the collection untouched with no mutation —
but the interpreter's actual filter `"buang"` matches the task and
deletes it, mutating the collection. -/
theorem hapus_no_match_counterexample :
    pyStartsWith (pstr ("hapus")) (pyStrip (pyLower (pstr ("hapus buanghapus")))) = true ∧
    [taskBuang].filter
        (fun t => pyIn (claimHapusRemainder (pyStrip (pyLower (pstr ("hapus buanghapus")))))
          (pyLower t.name)) = [] ∧
    (ai_process dt0 (pstr ("hapus buanghapus")) [taskBuang] profBasic).2 = [] ∧
    (ai_process dt0 (pstr ("hapus buanghapus")) [taskBuang] profBasic).1.save = true := by
  refine ⟨by decide, by decide, by decide, by decide⟩

/-- C3 (amended): if no small-talk rule fires and the normalized text
starts with `hapus`, then with the interpreter's delete filter (all
occurrences of `hapus` removed, trimmed): more than one match leaves the
collection untouched with no mutation and a reply reporting the match
count, and zero matches leave it untouched with no mutation and the
distinct not-found reply. -/
theorem hapus_ambiguous_or_none_untouched (now : DT) (q : PyStr) (tasks : List Task)
    (profile : Profile) (text : PyStr) (htext : text = pyStrip (pyLower q))
    (hst : smallTalk text = false)
    (hh : pyStartsWith (pstr ("hapus")) text = true) :
    ((tasks.filter (hapusMatch text)).length > 1 →
      ai_process now q tasks profile =
        (.plain (pstr ("Ditemukan ") ++ natStr (tasks.filter (hapusMatch text)).length ++
                 pstr (" tugas. Sebutkan nama lebih spesifik.")), tasks)) ∧
    (tasks.filter (hapusMatch text) = [] →
      ai_process now q tasks profile =
        (.plain (pstr ("Tugas '") ++ hapusFilter text ++ pstr ("' tidak ditemukan.")),
         tasks)) := by
  subst htext
  obtain ⟨hg, hi, hk⟩ := smallTalk_eq_false hst
  constructor
  · intro hlen
    rcases hfound : (tasks.filter (hapusMatch (pyStrip (pyLower q)))) with _ | ⟨a, _ | ⟨b, rest⟩⟩
    · rw [hfound] at hlen; simp at hlen
    · rw [hfound] at hlen; simp at hlen
    · rw [hfound] at hlen
      unfold ai_process
      simp only [hg, hi, hk, hh, Bool.false_eq_true, if_false, if_true, hfound]
      simp only [List.length_cons]
      rw [if_pos (by omega)]
  · intro hfound
    unfold ai_process
    simp only [hg, hi, hk, hh, Bool.false_eq_true, if_false, if_true, hfound]
    simp

/-- C3 witness: `"hapus tugas"` over two tasks both containing
`"tugas"` reports the count 2 and removes nothing; `"hapus xyz"` over
the same collection matches nothing and reports not-found. -/
theorem hapus_ambiguous_or_none_untouched_witness :
    ([taskJan10, taskJan05].filter
        (hapusMatch (pyStrip (pyLower (pstr ("hapus tugas")))))).length > 1 ∧
    ai_process dt0 (pstr ("hapus tugas")) [taskJan10, taskJan05] profBasic =
      (.plain (pstr ("Ditemukan ") ++
               natStr ([taskJan10, taskJan05].filter
                 (hapusMatch (pyStrip (pyLower (pstr ("hapus tugas")))))).length ++
               pstr (" tugas. Sebutkan nama lebih spesifik.")),
       [taskJan10, taskJan05]) ∧
    ai_process dt0 (pstr ("hapus xyz")) [taskJan10, taskJan05] profBasic =
      (.plain (pstr ("Tugas '") ++ hapusFilter (pyStrip (pyLower (pstr ("hapus xyz")))) ++
               pstr ("' tidak ditemukan.")),
       [taskJan10, taskJan05]) :=
  ⟨by decide,
   (hapus_ambiguous_or_none_untouched dt0 _ _ profBasic _ rfl (by decide) (by decide)).1
     (by decide),
   (hapus_ambiguous_or_none_untouched dt0 _ _ profBasic _ rfl (by decide) (by decide)).2
     (by decide)⟩

/-- C6 counterexample: for `"selesai lapselesai"` the *claimed* remainder
(prefix-stripped) is `"lapselesai"`, which is contained in the name of
the second task only — yet the interpreter marks the *first* task done,
because its actual filter is `"lap"` (every occurrence of `selesai`
removed). -/
theorem selesai_first_match_counterexample :
    pyStartsWith (pstr ("selesai")) (pyStrip (pyLower (pstr ("selesai lapselesai")))) = true ∧
    smallTalk (pyStrip (pyLower (pstr ("selesai lapselesai")))) = false ∧
    pyIn (claimSelesaiRemainder (pyStrip (pyLower (pstr ("selesai lapselesai")))))
      (pyLower taskLap.name) = false ∧
    pyIn (claimSelesaiRemainder (pyStrip (pyLower (pstr ("selesai lapselesai")))))
      (pyLower taskXLap.name) = true ∧
    (ai_process dt0 (pstr ("selesai lapselesai")) [taskLap, taskXLap] profBasic).2 =
      [{ taskLap with done := true }, taskXLap] := by
  refine ⟨by decide, by decide, by decide, by decide, by decide⟩

/-- C6 (amended): for text starting with `selesai` that matches no
earlier rule, with the interpreter's filter (the text with every
occurrence of `selesai` removed, trimmed): if some task's lowercased
name contains the filter, the first such task (in collection order) gets
`done := true` and mutation is signalled; otherwise every task is left
unchanged, there is no mutation, and the not-found reply is returned. -/
theorem selesai_marks_first_match (now : DT) (q : PyStr) (tasks : List Task)
    (profile : Profile) (text : PyStr) (htext : text = pyStrip (pyLower q))
    (hst : smallTalk text = false)
    (hh : pyStartsWith (pstr ("hapus")) text = false)
    (hs : pyStartsWith (pstr ("selesai")) text = true) :
    (∀ t0, tasks.find? (selesaiMatch text) = some t0 →
      ∃ l1 l2, tasks = l1 ++ t0 :: l2 ∧ (∀ u ∈ l1, selesaiMatch text u = false) ∧
        ai_process now q tasks profile =
          (.withSave (pstr ("Tugas '") ++ t0.name ++ pstr ("' ditandai selesai.")),
           l1 ++ { t0 with done := true } :: l2)) ∧
    (tasks.find? (selesaiMatch text) = none →
      ai_process now q tasks profile =
        (.plain (pstr ("Tugas '") ++ selesaiFilter text ++ pstr ("' tidak ditemukan.")),
         tasks)) := by
  subst htext
  obtain ⟨hg, hi, hk⟩ := smallTalk_eq_false hst
  constructor
  · intro t0 hfind
    obtain ⟨l1, l2, htasks, h1, hp0⟩ := find?_some_decomp hfind
    refine ⟨l1, l2, htasks, h1, ?_⟩
    unfold ai_process
    simp only [hg, hi, hk, hh, hs, Bool.false_eq_true, if_false, if_true]
    rw [htasks, markFirstDone_decomp h1 hp0]
  · intro hfind
    have hall : ∀ u ∈ tasks, selesaiMatch (pyStrip (pyLower q)) u = false := by
      intro u hu
      have := List.find?_eq_none.mp hfind u hu
      simpa using this
    unfold ai_process
    simp only [hg, hi, hk, hh, hs, Bool.false_eq_true, if_false, if_true]
    rw [markFirstDone_of_none hall]

/-- C6 witness: `"selesai math"` marks the only task `Math HW` done;
`"selesai xyz"` over the same collection changes nothing. -/
theorem selesai_marks_first_match_witness :
    [taskMath].find? (selesaiMatch (pyStrip (pyLower (pstr ("selesai math"))))) =
      some taskMath ∧
    (∃ l1 l2, [taskMath] = l1 ++ taskMath :: l2 ∧
      (∀ u ∈ l1, selesaiMatch (pyStrip (pyLower (pstr ("selesai math")))) u = false) ∧
      ai_process dt0 (pstr ("selesai math")) [taskMath] profBasic =
        (.withSave (pstr ("Tugas '") ++ taskMath.name ++ pstr ("' ditandai selesai.")),
         l1 ++ { taskMath with done := true } :: l2)) ∧
    ai_process dt0 (pstr ("selesai xyz")) [taskMath] profBasic =
      (.plain (pstr ("Tugas '") ++
               selesaiFilter (pyStrip (pyLower (pstr ("selesai xyz")))) ++
               pstr ("' tidak ditemukan.")), [taskMath]) :=
  ⟨by decide,
   (selesai_marks_first_match dt0 _ _ profBasic _ rfl (by decide) (by decide)
     (by decide)).1 taskMath (by decide),
   (selesai_marks_first_match dt0 _ _ profBasic _ rfl (by decide) (by decide)
     (by decide)).2 (by decide)⟩

/-- C7 (code bug): an all-aware candidate set is parsed and reported —
for the single offset-aware task the interpreter replies with it, which
the claim requires — but as soon as the parseable not-done candidates
mix an offset-aware and a naive deadline, the ascending sort raises
`TypeError` and the interpreter reports nothing at all, against both the
claim's "reports the task with the minimal deadline" and its "never
cause a failure of the sort". -/
theorem terdekat_crashes_on_mixed_deadlines :
    ai_process_run dt0 (pstr ("terdekat")) [taskAware] profBasic =
      some (.plain (pstr ("Deadline terdekat adalah 'Tugas Aware' pada 01 June 2025.")),
            [taskAware]) ∧
    (([taskJan10, taskAware].filter (fun t => !t.done)).filter
        (fun t => (parseDT t.deadline).isSome)).length = 2 ∧
    ai_process_run dt0 (pstr ("terdekat")) [taskJan10, taskAware] profBasic = none := by
  refine ⟨by decide, by decide, by decide⟩

/-- C8: for the list-all query (reached past every earlier rule, with a
non-empty collection), the reply renders every task with upper-cased
priority and note exactly when the plan is `pro`; any other plan value
yields the basic name-plus-date rendering. -/
theorem listall_pro_plan_gates_detail (now : DT) (q : PyStr) (tasks : List Task)
    (profile : Profile) (text : PyStr) (htext : text = pyStrip (pyLower q))
    (hst : smallTalk text = false)
    (hh : pyStartsWith (pstr ("hapus")) text = false)
    (hs : pyStartsWith (pstr ("selesai")) text = false)
    (ht : hasTerdekat text = false) (hm : hasMinggu text = false)
    (hb : hasBesok text = false) (hc : hasCount text = false)
    (hl : hasListAll text = true) (hne : tasks ≠ []) :
    (profile.plan = pstr ("pro") →
      ai_process now q tasks profile =
        (.plain (pstr ("Daftar tugas:\n") ++ joinNL (tasks.map taskLinePro)), tasks)) ∧
    (profile.plan ≠ pstr ("pro") →
      ai_process now q tasks profile =
        (.plain (pstr ("Daftar tugas:\n") ++ joinNL (tasks.map taskLineBasic)), tasks)) := by
  subst htext
  obtain ⟨hg, hi, hk⟩ := smallTalk_eq_false hst
  have hemp : tasks.isEmpty = false := by
    cases tasks with
    | nil => exact absurd rfl hne
    | cons a l => rfl
  constructor
  · intro hplan
    unfold ai_process
    simp only [hg, hi, hk, hh, hs, ht, hm, hb, hc, hl, hemp, Bool.false_eq_true,
      if_false, if_true, hplan, if_pos rfl]
  · intro hplan
    unfold ai_process
    simp only [hg, hi, hk, hh, hs, ht, hm, hb, hc, hl, hemp, Bool.false_eq_true,
      if_false, if_true]
    rw [if_neg hplan]

/-- C8 witness: listing with a pro profile shows priority and note;
with the basic profile it shows neither. -/
theorem listall_pro_plan_gates_detail_witness :
    ai_process dt0 (pstr ("tampilkan semua")) [taskJan10] profPro =
      (.plain (pstr ("Daftar tugas:\n") ++ joinNL ([taskJan10].map taskLinePro)),
       [taskJan10]) ∧
    ai_process dt0 (pstr ("tampilkan semua")) [taskJan10] profBasic =
      (.plain (pstr ("Daftar tugas:\n") ++ joinNL ([taskJan10].map taskLineBasic)),
       [taskJan10]) :=
  ⟨(listall_pro_plan_gates_detail dt0 _ _ profPro _ rfl (by decide) (by decide)
      (by decide) (by decide) (by decide) (by decide) (by decide) (by decide)
      (by decide)).1 rfl,
   (listall_pro_plan_gates_detail dt0 _ _ profBasic _ rfl (by decide) (by decide)
      (by decide) (by decide) (by decide) (by decide) (by decide) (by decide)
      (by decide)).2 (by decide)⟩

/-- When no rule at all matches, the interpreter reaches the static
help fallback and leaves the collection unchanged. -/
theorem ai_process_fallback (now : DT) (q : PyStr) (tasks : List Task)
    (profile : Profile) (h : noRuleMatches q tasks = true) :
    ai_process now q tasks profile = (.plain helpMsg, tasks) := by
  simp only [noRuleMatches, Bool.and_eq_true, Bool.not_eq_true'] at h
  obtain ⟨⟨⟨⟨⟨⟨⟨⟨hst, hh⟩, hs⟩, ht⟩, hm⟩, hb⟩, hc⟩, hl⟩, hany⟩ := h
  obtain ⟨hg, hi, hk⟩ := smallTalk_eq_false hst
  have hfind : tasks.find? (fun t => pyIn (pyLower t.name) (pyStrip (pyLower q))) = none :=
    List.find?_eq_none.mpr (fun x hx => by simpa using List.any_eq_false.mp hany x hx)
  unfold ai_process
  simp only [hg, hi, hk, hh, hs, ht, hm, hb, hc, hl, Bool.false_eq_true, if_false, hfind]

set_option maxRecDepth 4000

/-- Branch-by-branch characterization of the crash-free projection
`ai_process` (see `ai_process_run` for the raising case): the reply text
is never empty, the `_save` marker is set exactly on the two mutating
paths, and on every other path the collection is returned unchanged. -/
theorem ai_process_characterization (now : DT) (q : PyStr) (tasks : List Task)
    (profile : Profile) :
    0 < ((ai_process now q tasks profile).1.text).length ∧
    (ai_process now q tasks profile).1.save = mutatesPath q tasks ∧
    (mutatesPath q tasks = false → (ai_process now q tasks profile).2 = tasks) := by
  by_cases hg : isGreeting (pyStrip (pyLower q)) = true
  · have hres : ai_process now q tasks profile = (.plain greetMsg, tasks) := by
      unfold ai_process; simp [hg]
    have hmut : mutatesPath q tasks = false := by
      unfold mutatesPath smallTalk; simp [hg]
    rw [hres, hmut]
    refine ⟨?_, rfl, fun _ => rfl⟩
    show 0 < greetMsg.length
    decide
  rw [Bool.not_eq_true] at hg
  by_cases hi : isIdentity (pyStrip (pyLower q)) = true
  · have hres : ai_process now q tasks profile =
        (.plain (pstr ("Saya SmartTask AI — asisten tugas dan pengingat.")), tasks) := by
      unfold ai_process; simp [hg, hi]
    have hmut : mutatesPath q tasks = false := by
      unfold mutatesPath smallTalk; simp [hi]
    rw [hres, hmut]
    refine ⟨?_, rfl, fun _ => rfl⟩
    show 0 < (pstr ("Saya SmartTask AI — asisten tugas dan pengingat.")).length
    decide
  rw [Bool.not_eq_true] at hi
  by_cases hk : isKabar (pyStrip (pyLower q)) = true
  · have hres : ai_process now q tasks profile =
        (.plain (pstr ("Baik, terima kasih! Kamu gimana?")), tasks) := by
      unfold ai_process; simp [hg, hi, hk]
    have hmut : mutatesPath q tasks = false := by
      unfold mutatesPath smallTalk; simp [hk]
    rw [hres, hmut]
    refine ⟨?_, rfl, fun _ => rfl⟩
    show 0 < (pstr ("Baik, terima kasih! Kamu gimana?")).length
    decide
  rw [Bool.not_eq_true] at hk
  have hst : smallTalk (pyStrip (pyLower q)) = false := by
    unfold smallTalk; simp [hg, hi, hk]
  by_cases hh : pyStartsWith (pstr ("hapus")) (pyStrip (pyLower q)) = true
  · rcases hfound : tasks.filter (hapusMatch (pyStrip (pyLower q)))
      with _ | ⟨a, _ | ⟨b, rest⟩⟩
    · have hres : ai_process now q tasks profile =
          (.plain (pstr ("Tugas '") ++ hapusFilter (pyStrip (pyLower q)) ++
                   pstr ("' tidak ditemukan.")), tasks) := by
        unfold ai_process
        simp only [hg, hi, hk, hh, Bool.false_eq_true, if_false, if_true, hfound]
        simp
      have hmut : mutatesPath q tasks = false := by
        unfold mutatesPath; simp [hst, hh, hfound]
      rw [hres, hmut]
      refine ⟨?_, rfl, fun _ => rfl⟩
      simp only [Reply.text]
      repeat (first | decide | apply append_length_pos)
    · have hres : ai_process now q tasks profile =
          (.withSave (pstr ("Tugas '") ++ a.name ++ pstr ("' dihapus.")),
           tasks.erase a) := by
        unfold ai_process
        simp only [hg, hi, hk, hh, Bool.false_eq_true, if_false, if_true, hfound]
      have hmut : mutatesPath q tasks = true := by
        unfold mutatesPath; simp [hst, hh, hfound]
      rw [hres, hmut]
      refine ⟨?_, rfl, fun h => absurd h (by decide)⟩
      simp only [Reply.text]
      repeat (first | decide | apply append_length_pos)
    · have hres : ai_process now q tasks profile =
          (.plain (pstr ("Ditemukan ") ++ natStr (a :: b :: rest).length ++
                   pstr (" tugas. Sebutkan nama lebih spesifik.")), tasks) := by
        unfold ai_process
        simp only [hg, hi, hk, hh, Bool.false_eq_true, if_false, if_true, hfound,
          List.length_cons]
        rw [if_pos (by omega)]
      have hmut : mutatesPath q tasks = false := by
        unfold mutatesPath
        simp only [hst, hh, Bool.not_false, Bool.true_and, if_true, hfound]
        rfl
      rw [hres, hmut]
      refine ⟨?_, rfl, fun _ => rfl⟩
      simp only [Reply.text]
      repeat (first | decide | apply append_length_pos)
  rw [Bool.not_eq_true] at hh
  by_cases hs : pyStartsWith (pstr ("selesai")) (pyStrip (pyLower q)) = true
  · rcases hmfd : markFirstDone (selesaiMatch (pyStrip (pyLower q))) tasks with ⟨fo, ts2⟩
    have hiso := markFirstDone_fst_isSome (selesaiMatch (pyStrip (pyLower q))) tasks
    rw [hmfd] at hiso
    cases fo with
    | some f =>
      have hres : ai_process now q tasks profile =
          (.withSave (pstr ("Tugas '") ++ f.name ++ pstr ("' ditandai selesai.")),
           ts2) := by
        unfold ai_process
        simp only [hg, hi, hk, hh, hs, Bool.false_eq_true, if_false, if_true, hmfd]
      have hany : tasks.any (selesaiMatch (pyStrip (pyLower q))) = true := by
        simpa using hiso.symm
      have hmut : mutatesPath q tasks = true := by
        unfold mutatesPath; simp [hst, hh, hs, hany]
      rw [hres, hmut]
      refine ⟨?_, rfl, fun h => absurd h (by decide)⟩
      simp only [Reply.text]
      repeat (first | decide | apply append_length_pos)
    | none =>
      have hres : ai_process now q tasks profile =
          (.plain (pstr ("Tugas '") ++ selesaiFilter (pyStrip (pyLower q)) ++
                   pstr ("' tidak ditemukan.")), tasks) := by
        unfold ai_process
        simp only [hg, hi, hk, hh, hs, Bool.false_eq_true, if_false, if_true, hmfd]
      have hany : tasks.any (selesaiMatch (pyStrip (pyLower q))) = false := by
        simpa using hiso.symm
      have hmut : mutatesPath q tasks = false := by
        unfold mutatesPath; simp [hst, hh, hs, hany]
      rw [hres, hmut]
      refine ⟨?_, rfl, fun _ => rfl⟩
      simp only [Reply.text]
      repeat (first | decide | apply append_length_pos)
  rw [Bool.not_eq_true] at hs
  have hmut : mutatesPath q tasks = false := by
    unfold mutatesPath; simp [hst, hh, hs]
  have hrest : ∃ X, ai_process now q tasks profile = (.plain X, tasks) ∧ 0 < X.length := by
    unfold ai_process
    simp only [hg, hi, hk, hh, hs, Bool.false_eq_true, if_false]
    by_cases ht : hasTerdekat (pyStrip (pyLower q)) = true
    · simp only [ht, if_true]
      split
      · exact ⟨_, rfl, by decide⟩
      · refine ⟨_, rfl, ?_⟩
        repeat (first | decide | apply append_length_pos)
    · rw [Bool.not_eq_true] at ht
      simp only [ht, Bool.false_eq_true, if_false]
      by_cases hm : hasMinggu (pyStrip (pyLower q)) = true
      · simp only [hm, if_true]
        split
        · exact ⟨_, rfl, by decide⟩
        · refine ⟨_, rfl, ?_⟩
          repeat (first | decide | apply append_length_pos)
      · rw [Bool.not_eq_true] at hm
        simp only [hm, Bool.false_eq_true, if_false]
        by_cases hb : hasBesok (pyStrip (pyLower q)) = true
        · simp only [hb, if_true]
          split
          · exact ⟨_, rfl, by decide⟩
          · refine ⟨_, rfl, ?_⟩
            repeat (first | decide | apply append_length_pos)
        · rw [Bool.not_eq_true] at hb
          simp only [hb, Bool.false_eq_true, if_false]
          by_cases hc : hasCount (pyStrip (pyLower q)) = true
          · simp only [hc, if_true]
            refine ⟨_, rfl, ?_⟩
            repeat (first | decide | apply append_length_pos)
          · rw [Bool.not_eq_true] at hc
            simp only [hc, Bool.false_eq_true, if_false]
            by_cases hl : hasListAll (pyStrip (pyLower q)) = true
            · simp only [hl, if_true]
              split
              · exact ⟨_, rfl, by decide⟩
              · split
                · refine ⟨_, rfl, ?_⟩
                  repeat (first | decide | apply append_length_pos)
                · refine ⟨_, rfl, ?_⟩
                  repeat (first | decide | apply append_length_pos)
            · rw [Bool.not_eq_true] at hl
              simp only [hl, Bool.false_eq_true, if_false]
              split
              · split
                · refine ⟨_, rfl, ?_⟩
                  repeat (first | decide | apply append_length_pos)
                · refine ⟨_, rfl, ?_⟩
                  repeat (first | decide | apply append_length_pos)
              · exact ⟨_, rfl, by decide⟩
  obtain ⟨X, hres, hpos⟩ := hrest
  rw [hres, hmut]
  exact ⟨by simpa [Reply.text] using hpos, rfl, fun _ => rfl⟩

/-- C1 (code bug): the interpreter is *not* total.  With one
offset-aware and one naive deadline — both storable through the
application's own task API — the nearest-deadline branch's
`upcoming.sort(key=parse_dt)` raises `TypeError` outside every handler,
so the call returns no reply at all for that input, against the claim's
"returns a reply without raising" for every input and collection. -/
theorem interpreter_raises_on_mixed_deadlines :
    (parseDT taskAware.deadline).isSome = true ∧
    (parseDT taskMath.deadline).isSome = true ∧
    ai_process_run dt0 (pstr ("deadline terdekat")) [taskAware, taskMath] profBasic =
      none := by
  refine ⟨by decide, by decide, by decide⟩

/-- C10: the interpreter requests persistence (the `_save` marker)
exactly on the two mutating paths — a delete whose filter matches
exactly one task, or a mark-done whose filter matches some task — and on
every other path it returns the task collection element-wise
unchanged. -/
theorem mutation_exactly_on_two_paths (now : DT) (q : PyStr) (tasks : List Task)
    (profile : Profile) :
    (ai_process now q tasks profile).1.save = mutatesPath q tasks ∧
    (mutatesPath q tasks = false → (ai_process now q tasks profile).2 = tasks) :=
  ⟨(ai_process_characterization now q tasks profile).2.1,
   (ai_process_characterization now q tasks profile).2.2⟩

/-- C10 witness: a greeting is a non-mutating path and returns the
collection unchanged. -/
theorem mutation_exactly_on_two_paths_witness :
    (ai_process dt0 (pstr ("halo")) [taskMath] profBasic).1.save =
      mutatesPath (pstr ("halo")) [taskMath] ∧
    (ai_process dt0 (pstr ("halo")) [taskMath] profBasic).2 = [taskMath] :=
  ⟨(mutation_exactly_on_two_paths dt0 (pstr ("halo")) [taskMath] profBasic).1,
   (mutation_exactly_on_two_paths dt0 (pstr ("halo")) [taskMath] profBasic).2
     (by decide)⟩

end SmartTask
